import Mathlib

/-!
Verification development for scoreboard.py: a shallow embedding of the
team-name resolver, game-record builder, schedule-row parser, cache updater
and cache reader, together with theorems about the specified properties.
-/

/-- Calendar date as produced by Python datetime.date(year, month, day);
Python compares dates lexicographically on (year, month, day). -/
structure Date where
  year : Nat
  month : Nat
  day : Nat
deriving DecidableEq, Repr

/-- Python ordering on dates: lexicographic on (year, month, day). -/
def date_le (a b : Date) : Bool :=
  decide (a.year < b.year ∨ (a.year = b.year ∧
    (a.month < b.month ∨ (a.month = b.month ∧ a.day ≤ b.day))))

/-- The fixed alias table (scoreboard.py lines 21-52); each row is
[standard abbreviation, ESPN abbreviation, ESPN city name]. -/
def team_aliases : List (List String) := [
  ["ATL", "atl", "Atlanta"],
  ["BKN", "bkn", "Brooklyn"],
  ["BOS", "bos", "Boston"],
  ["CHA", "cha", "Charlotte"],
  ["CHI", "chi", "Chicago"],
  ["CLE", "cle", "Cleveland"],
  ["DAL", "dal", "Dallas"],
  ["DEN", "den", "Denver"],
  ["DET", "det", "Detroit"],
  ["GSW", "gs", "Golden State"],
  ["HOU", "hou", "Houston"],
  ["IND", "ind", "Indiana"],
  ["LAC", "lac", "LA"],
  ["LAL", "lal", "Los Angeles"],
  ["MEM", "mem", "Memphis"],
  ["MIA", "mia", "Miami"],
  ["MIL", "mil", "Milwuakee"],
  ["MIN", "min", "Minnesota"],
  ["NOP", "no", "New Orleans"],
  ["NYK", "ny", "NY Knicks"],
  ["OKC", "okc", "Oklahoma City"],
  ["ORL", "orl", "Orlando"],
  ["PHI", "phi", "Philadelphia"],
  ["PHX", "phx", "Phoenix"],
  ["POR", "por", "Portland"],
  ["SAC", "sac", "Sacramento"],
  ["SAS", "sa", "San Antonio"],
  ["TOR", "tor", "Toronto"],
  ["UTA", "utah", "Utah"],
  ["WAS", "wsh", "Washington"]]

/-- Line 54: teams = [abbr for abbr, *other in team_aliases]. -/
def teams : List String := team_aliases.map (fun row => row.headI)

/-- Line 67: choices = list(chain(*team_aliases)). -/
def alias_pool : List String := team_aliases.flatMap (fun row => row)

/-- Modelled from the spec: a token-overlap similarity score for the fuzzy
matcher (the external fuzzywuzzy library, which is not repository code); the
spec notes the exact scoring algorithm is not load-bearing since the
candidate pool is small and mostly distinct. -/
def sim_score (q c : String) : Nat :=
  ((q.toList.map Char.toLower).filter
    (fun ch => ch ∈ c.toList.map Char.toLower)).length

/-- First choice attaining the maximal similarity score against the query. -/
def best_choice (q : String) : List String → String
  | [] => ""
  | c :: cs =>
    cs.foldl (fun best c2 => if sim_score q best < sim_score q c2 then c2 else best) c

/-- Modelled from the spec: process.extractOne from the external fuzzywuzzy
library (line 68), returning the single best fuzzy match from the candidate
pool. A query exactly equal to a pool member is its own best match (an exact
match scores strictly above every non-exact one); otherwise the first choice
with the highest similarity score is returned. -/
def fuzzy_match (query : String) : String :=
  if query ∈ alias_pool then query else best_choice query alias_pool

/-- Lines 70-72 of abbr: scan team_aliases for the first row containing the
fuzzy-matched name and return its standard (or ESPN) abbreviation; when no
row contains the name the Python loop falls through and the function
implicitly returns None, modelled as none. -/
def abbr_of_match (name : String) (espn : Bool) : Option String :=
  (team_aliases.find? (fun row => row.contains name)).map
    (fun row => if espn then row.getD 1 "" else row.headI)

/-- Embedding of abbr (lines 61-72): fuzzy-match the input against the
flattened alias pool, then look the matched name up in the alias table. -/
def abbr (team : String) (espn : Bool) : Option String :=
  abbr_of_match (fuzzy_match team) espn

/-- The Game namedtuple (lines 56-59). The team-name fields are polymorphic
in α because Python is dynamically typed; fetched games carry Option String
values there since abbr can return None. The Python score is a two-element
list [winner points, loser points], modelled as a pair. -/
structure Game (α : Type) where
  date : Date
  team : α
  opp : α
  home : Bool
  won : Bool
  score : Nat × Nat
  home_team : α
  away_team : α
  team_score : Nat
  opp_score : Nat
  home_score : Nat
  away_score : Nat
  winner : α
  loser : α
deriving DecidableEq, Repr

/-- Embedding of one_game (lines 74-98). -/
def one_game {α : Type} (date : Date) (team opp : α) (home won : Bool)
    (score : Nat × Nat) : Game α :=
  let home_team := if home then team else opp
  let away_team := if home then opp else team
  let score_winner := score.1
  let score_loser := score.2
  let team_score := if won then score_winner else score_loser
  let opp_score := if won then score_loser else score_winner
  let home_score := if home then team_score else opp_score
  let away_score := if home then opp_score else team_score
  let winner := if won then team else opp
  let loser := if won then opp else team
  { date := date, team := team, opp := opp, home := home, won := won,
    score := score, home_team := home_team, away_team := away_team,
    team_score := team_score, opp_score := opp_score,
    home_score := home_score, away_score := away_score,
    winner := winner, loser := loser }

/-- Python exceptions that the row-parsing code of fetch_games can raise. -/
inductive PyErr where
  | valueError
  | attributeError
  | indexError
deriving DecidableEq, Repr

/-- Line 150: except (ValueError, AttributeError) — only these two exception
classes are caught and skipped; IndexError is not among them. -/
def caught : PyErr → Bool
  | PyErr.valueError => true
  | PyErr.attributeError => true
  | PyErr.indexError => false

/-- Python str.split(sep) with a one-character separator: splits at every
occurrence of the separator, keeping empty pieces, and always returns at
least one piece. -/
def split_on_char (c : Char) : List Char → List (List Char)
  | [] => [[]]
  | ch :: rest =>
    let r := split_on_char c rest
    if ch == c then [] :: r
    else
      match r with
      | [] => [[ch]]
      | g :: gs => (ch :: g) :: gs

/-- Lowercase a character list (strptime matches names case-insensitively). -/
def lc (l : List Char) : List Char := l.map Char.toLower

/-- Python int() on the digit strings appearing in schedule rows: some value
for a nonempty all-digit token, none (a ValueError) otherwise. -/
def chars_to_nat? (l : List Char) : Option Nat :=
  if l = [] then none
  else l.foldl
    (fun acc ch => acc.bind (fun n =>
      if ch.isDigit then some (n * 10 + (ch.toNat - 48)) else none))
    (some 0)

/-- The %b month abbreviations recognised by strptime. -/
def month_abbrs : List String :=
  ["Jan", "Feb", "Mar", "Apr", "May", "Jun",
   "Jul", "Aug", "Sep", "Oct", "Nov", "Dec"]

/-- The %a weekday abbreviations recognised by strptime. -/
def weekday_abbrs : List String :=
  ["Mon", "Tue", "Wed", "Thu", "Fri", "Sat", "Sun"]

/-- Line 122: datetime.strptime(month, '%b').month — the 1-based month
number of a month abbreviation, matched case-insensitively. -/
def month_from_abbr (l : List Char) : Option Nat :=
  ((month_abbrs.map String.toList).findIdx? (fun m => lc m == lc l)).map
    (fun i => i + 1)

/-- Line 123: year = (season if month_number < 7 else season - 1). -/
def infer_year (season month_number : Nat) : Nat :=
  if month_number < 7 then season else season - 1

/-- Gregorian leap year, as validated by datetime.date. -/
def is_leap (y : Nat) : Bool := (y % 4 == 0 && y % 100 != 0) || (y % 400 == 0)

/-- Days in a month, as validated by datetime.date. -/
def days_in_month (y m : Nat) : Nat :=
  if m == 2 then (if is_leap y then 29 else 28)
  else if [4, 6, 9, 11].contains m then 30 else 31

/-- Day-of-month validity, as checked by strptime %d plus the datetime.date
constructor. -/
def valid_day (y m d : Nat) : Bool := 1 ≤ d && d ≤ days_in_month y m

/-- Lines 121-126: unpack the date cell text. weekday, month, day =
date.text.split() (a ValueError unless exactly three whitespace-separated
tokens); the month abbreviation gives the month number via strptime %b; the
year comes from infer_year; then '{date.text}, {year}' is re-parsed with
strptime('%a, %b %d, %Y') and datetime.date is built, which succeeds iff the
weekday token is a valid %a abbreviation followed by a comma, the day token
is a numeral, and the day is valid for that month; any failure raises
ValueError. -/
def parse_date_text (season : Nat) (text : List Char) : Except PyErr Date :=
  match (split_on_char ' ' text).filter (fun t => t ≠ []) with
  | [wd, mon, dayTok] =>
    match month_from_abbr mon with
    | none => Except.error PyErr.valueError
    | some m =>
      match chars_to_nat? dayTok with
      | none => Except.error PyErr.valueError
      | some d =>
        if (wd.getLast? == some ',') &&
           ((weekday_abbrs.map String.toList).any
             (fun w => lc w == lc wd.dropLast)) &&
           valid_day (infer_year season m) m d
        then Except.ok ⟨infer_year season m, m, d⟩
        else Except.error PyErr.valueError
  | _ => Except.error PyErr.valueError

/-- One td cell as consumed by fetch_games: its text, the texts of all of its
anchor descendants in document order (find_all('a')), and the text of its
first li, span and a descendant — none models a missing tag, whose .text
access raises AttributeError. -/
structure Td where
  text : List Char
  anchors : List String
  li : Option String
  span : Option String
  a : Option (List Char)
deriving Repr

/-- An empty td cell. -/
def td0 : Td := ⟨[], [], none, none, none⟩

/-- One schedule table row: its td cells in document order. -/
structure Row where
  tds : List Td
deriving Repr

/-- Lines 116-148: parse one schedule row into a Game. Each failure is the
Python exception the corresponding line raises: too few td cells or a bad
date text or a bad score raise ValueError, a missing li/span/a tag raises
AttributeError, and opponent.find_all('a')[1] raises IndexError when the
opponent cell has fewer than two anchors. -/
def parse_row (team : String) (season : Nat) (row : Row) :
    Except PyErr (Game (Option String)) := do
  let cells ←
    match row.tds with
    | d :: o :: r :: _ => Except.ok (d, o, r)
    | _ => Except.error PyErr.valueError
  let dateTd := cells.1
  let oppTd := cells.2.1
  let resTd := cells.2.2
  let date ← parse_date_text season dateTd.text
  let oppName ←
    match oppTd.anchors.get? 1 with
    | some s => Except.ok s
    | none => Except.error PyErr.indexError
  let team' := abbr team false
  let opp' := abbr oppName false
  let liText ←
    match oppTd.li with
    | some s => Except.ok s
    | none => Except.error PyErr.attributeError
  let home := liText == "vs"
  let spanText ←
    match resTd.span with
    | some s => Except.ok s
    | none => Except.error PyErr.attributeError
  let won := spanText == "W"
  let aText ←
    match resTd.a with
    | some s => Except.ok s
    | none => Except.error PyErr.attributeError
  let nums ←
    match (split_on_char '-' ((split_on_char ' ' aText).headD [])).mapM
        chars_to_nat? with
    | some ns => Except.ok ns
    | none => Except.error PyErr.valueError
  let score ←
    match nums with
    | [a, b] => Except.ok (a, b)
    | _ => Except.error PyErr.valueError
  Except.ok (one_game date team' opp' home won score)

/-- Lines 115-151: the loop of fetch_games over the schedule table rows. A
row whose parse raises ValueError or AttributeError is skipped by the except
clause; any other exception propagates and aborts the iteration. -/
def fetch_rows (team : String) (season : Nat) :
    List Row → Except PyErr (List (Game (Option String)))
  | [] => Except.ok []
  | r :: rs =>
    match parse_row team season r with
    | Except.ok g => (fetch_rows team season rs).map (fun gs => g :: gs)
    | Except.error e =>
      if caught e then fetch_rows team season rs else Except.error e

/-- Python dict lookup: the value of the first binding of the key, none when
the key is absent (a KeyError on subscript access). The association list
models a Python dict in insertion order; Python dicts never hold duplicate
keys, and lookup and update consistently use the first binding. -/
def dict_get? {κ β : Type} [DecidableEq κ] (k : κ) :
    List (κ × β) → Option β
  | [] => none
  | (k', v) :: rest => if k' = k then some v else dict_get? k rest

/-- Python dict assignment d[k] = v: replace the value at an existing key in
place, else append the new binding at the end. -/
def dict_set {κ β : Type} [DecidableEq κ] (k : κ) (v : β) :
    List (κ × β) → List (κ × β)
  | [] => [(k, v)]
  | (k', v') :: rest =>
    if k' = k then (k, v) :: rest else (k', v') :: dict_set k v rest

/-- The two-level cache: season → team abbreviation → cell value (in the
program, the list of fetched games for that team's season). -/
abbrev Cache (β : Type) := List (Nat × List (String × β))

/-- Line 174: games[season][team] = value, where games is a
defaultdict(dict) — a missing season key starts from an empty inner dict
and the season key is appended. -/
def cell_set {β : Type} (s : Nat) (t : String) (v : β) (c : Cache β) :
    Cache β :=
  dict_set s (dict_set t v ((dict_get? s c).getD [])) c

/-- Read one (season, team) cell of the cache. -/
def cell_get? {β : Type} (s : Nat) (t : String) (c : Cache β) : Option β :=
  (dict_get? s c).bind (fun inner => dict_get? t inner)

/-- games.keys() in insertion order. -/
def cache_keys {β : Type} (c : Cache β) : List Nat := c.map Prod.fst

/-- Line 162: current_season = (now.year + 1 if now.month > 7 else
now.year). -/
def current_season (year month : Nat) : Nat :=
  if 7 < month then year + 1 else year

/-- Python range(a, b + 1): the seasons a through b inclusive. -/
def range_incl (a b : Nat) : List Nat := List.range' a (b + 1 - a)

/-- Line 167: most_current_year = max(games.keys()); none models the
ValueError that max raises on an empty dict. -/
def most_current_year {β : Type} (c : Cache β) : Option Nat :=
  match cache_keys c with
  | [] => none
  | k :: ks => some (ks.foldl max k)

/-- Line 173: product(scrape_seasons, team_aliases) with each alias row
destructured to its leading standard abbreviation — the (season, team) cells
in season-major, team-minor order. -/
def season_cells (seasons : List Nat) : List (Nat × String) :=
  seasons.flatMap (fun s => teams.map (fun t => (s, t)))

/-- Lines 173-174 without persistence: overwrite each listed cell with its
fetched games, in order. -/
def cells_fold {β : Type} (fetch : Nat → String → β)
    (cells : List (Nat × String)) (c : Cache β) : Cache β :=
  cells.foldl (fun c p => cell_set p.1 p.2 (fetch p.1 p.2) c) c

/-- Lines 161-171 of update: choose the season range to scrape and the
starting cache. cacheExists models cachefile.exists() and loaded the
dill-loaded prior cache; with an existing cache and rebuild false the range
is max(games.keys()) through the current season and the loaded cache is kept
(none models the ValueError of max on an empty loaded dict); otherwise the
range is 2003 through the current season starting from an empty cache. -/
def scrape_plan {β : Type} (cacheExists rebuild : Bool) (loaded : Cache β)
    (year month : Nat) : Option (List Nat × Cache β) :=
  let cur := current_season year month
  if cacheExists && !rebuild then
    (most_current_year loaded).map (fun m0 => (range_incl m0 cur, loaded))
  else
    some (range_incl 2003 cur, [])

/-- Embedding of update (lines 154-175): the cache state after the full
scraping loop. fetch abstracts fetch_games' network interaction as the fixed
remote data source; (year, month) is datetime.now(). -/
def update_run {β : Type} (fetch : Nat → String → β)
    (cacheExists rebuild : Bool) (loaded : Cache β) (year month : Nat) :
    Option (Cache β) :=
  (scrape_plan cacheExists rebuild loaded year month).map
    (fun plan => cells_fold fetch (season_cells plan.1) plan.2)

/-- The updater's state mid-run: the in-memory cache and the cache contents
last persisted to the cachefile by dill.dump. -/
structure RunState (β : Type) where
  mem : Cache β
  disk : Cache β
deriving Repr

/-- Lines 173-175, one loop iteration: fetch the cell's games, overwrite the
cell in the in-memory cache, then immediately dump the entire cache to the
cachefile. -/
def cell_step {β : Type} (fetch : Nat → String → β) (st : RunState β)
    (p : Nat × String) : RunState β :=
  let m := cell_set p.1 p.2 (fetch p.1 p.2) st.mem
  ⟨m, m⟩

/-- The run interrupted after completing the first n of the listed cells:
only those n iterations have executed. -/
def interrupted_run {β : Type} (fetch : Nat → String → β)
    (cells : List (Nat × String)) (n : Nat) (st : RunState β) : RunState β :=
  (cells.take n).foldl (cell_step fetch) st

/-- Lines 225-229, the library import mode: years = games.keys(); the cells
games[y][t] for (t, y) in product(teams, years) are chained together and
sorted by date. Python's sorted is a stable ascending sort by the key, whose
output is uniquely determined; it is modelled by the stable ascending
insertion sort on the date order. none models the KeyError raised when some
cached season has no entry for one of the 30 teams. -/
def load_games {α : Type} (c : Cache (List (Game α))) :
    Option (List (Game α)) := do
  let cells ←
    (teams.flatMap (fun t => (cache_keys c).map (fun y => (t, y)))).mapM
      (fun p => (dict_get? p.2 c).bind (fun inner => dict_get? p.1 inner))
  some (List.insertionSort (fun g1 g2 => date_le g1.date g2.date = true)
    cells.flatten)

/-- A well-formed schedule row: Boston hosting Atlanta, season 2020 (an
October game, so calendar year 2019), won 110-100. -/
def sample_row1 : Row := ⟨[
  ⟨"Wed, Oct 21".toList, [], none, none, none⟩,
  ⟨[], ["logo", "Atlanta"], some "vs", none, none⟩,
  ⟨[], [], none, some "W", some ("110-100".toList)⟩]⟩

/-- A well-formed schedule row: Boston at Atlanta, season 2020 (a January
game, so calendar year 2020), lost 99-101. -/
def sample_row2 : Row := ⟨[
  ⟨"Fri, Jan 15".toList, [], none, none, none⟩,
  ⟨[], ["logo", "Atlanta"], some "@", none, none⟩,
  ⟨[], [], none, some "L", some ("99-101".toList)⟩]⟩

/-- A malformed schedule row (a postponed-game marker spanning one cell):
unpacking its td cells raises ValueError, which the except clause catches. -/
def sample_row_bad : Row := ⟨[⟨"Postponed".toList, [], none, none, none⟩]⟩

/-- A malformed schedule row whose opponent cell has only one anchor:
opponent.find_all('a')[1] raises IndexError, which the except clause does
not catch. -/
def sample_row_badlink : Row := ⟨[
  ⟨"Sat, Nov 7".toList, [], none, none, none⟩,
  ⟨[], ["Boston"], some "vs", none, none⟩,
  ⟨[], [], none, some "L", some ("99-101".toList)⟩]⟩

/-- The game record sample_row1 parses to. -/
def sample_game1 : Game (Option String) :=
  one_game ⟨2019, 10, 21⟩ (some "BOS") (some "ATL") true true (110, 100)

/-- The game record sample_row2 parses to. -/
def sample_game2 : Game (Option String) :=
  one_game ⟨2020, 1, 15⟩ (some "BOS") (some "ATL") false false (99, 101)

/-- First cached sample game, dated 2018-10-20. -/
def cg1 : Game (Option String) :=
  one_game ⟨2018, 10, 20⟩ (some "BOS") (some "ATL") true true (100, 90)

/-- Second cached sample game, dated 2019-01-05. -/
def cg2 : Game (Option String) :=
  one_game ⟨2019, 1, 5⟩ (some "BOS") (some "TOR") false true (105, 99)

/-- Third cached sample game, dated 2019-10-25. -/
def cg3 : Game (Option String) :=
  one_game ⟨2019, 10, 25⟩ (some "BOS") (some "NYK") true false (95, 98)

/-- An inner season dict with a cell for every known team: the given games
under BOS and an empty schedule for every other team. -/
def inner_bos (gs : List (Game (Option String))) :
    List (String × List (Game (Option String))) :=
  teams.map (fun t => (t, if t = "BOS" then gs else []))

/-- A cache holding seasons 2019 and 2020 with every team present; BOS has
cg1, cg2 in 2019 and cg3 in 2020. -/
def sample_cache_full : Cache (List (Game (Option String))) :=
  [(2019, inner_bos [cg1, cg2]), (2020, inner_bos [cg3])]

/-- sample_cache_full with the season keys in the opposite iteration
order. -/
def sample_cache_rev : Cache (List (Game (Option String))) :=
  [(2020, inner_bos [cg3]), (2019, inner_bos [cg1, cg2])]

/-- The cache of the Cache Reader scenario exactly as the spec states it:
cells only for BOS. -/
def sample_cache_bos_only : Cache (List (Game (Option String))) :=
  [(2019, [("BOS", [cg1, cg2])]), (2020, [("BOS", [cg3])])]

/-- C1: for every input (date, team, opp, home, won, score), the record built
by one_game satisfies the derivation rules: home_team is team if home else
opp and away_team is the other; team_score is score.1 if won else score.2 and
opp_score is the other component; home_score is team_score if home else
opp_score and away_score is the other; winner is team if won else opp and
loser is the other; consequently home_score + away_score equals
score.1 + score.2 and winner is one of team or opp with loser the other. -/
theorem one_game_spec {α : Type} (date : Date) (team opp : α)
    (home won : Bool) (score : Nat × Nat) :
    (one_game date team opp home won score).home_team
        = (if home then team else opp) ∧
    (one_game date team opp home won score).away_team
        = (if home then opp else team) ∧
    (one_game date team opp home won score).team_score
        = (if won then score.1 else score.2) ∧
    (one_game date team opp home won score).opp_score
        = (if won then score.2 else score.1) ∧
    (one_game date team opp home won score).home_score
        = (if home then (one_game date team opp home won score).team_score
           else (one_game date team opp home won score).opp_score) ∧
    (one_game date team opp home won score).away_score
        = (if home then (one_game date team opp home won score).opp_score
           else (one_game date team opp home won score).team_score) ∧
    (one_game date team opp home won score).winner
        = (if won then team else opp) ∧
    (one_game date team opp home won score).loser
        = (if won then opp else team) ∧
    (one_game date team opp home won score).home_score
        + (one_game date team opp home won score).away_score
        = score.1 + score.2 ∧
    (((one_game date team opp home won score).winner = team ∧
      (one_game date team opp home won score).loser = opp) ∨
     ((one_game date team opp home won score).winner = opp ∧
      (one_game date team opp home won score).loser = team)) := by
  cases home <;> cases won <;>
    simp [one_game] <;> omega

theorem dict_get?_set_self {κ β : Type} [DecidableEq κ] (k : κ) (v : β)
    (d : List (κ × β)) : dict_get? k (dict_set k v d) = some v := by
  induction d with
  | nil => simp [dict_set, dict_get?]
  | cons hd tl ih =>
    obtain ⟨k', v'⟩ := hd
    by_cases h : k' = k <;> simp [dict_set, dict_get?, h, ih]

theorem dict_get?_set_ne {κ β : Type} [DecidableEq κ] {k k' : κ}
    (h : k' ≠ k) (v : β) (d : List (κ × β)) :
    dict_get? k (dict_set k' v d) = dict_get? k d := by
  induction d with
  | nil => simp [dict_set, dict_get?, h]
  | cons hd tl ih =>
    obtain ⟨k0, v0⟩ := hd
    by_cases h0 : k0 = k' <;> by_cases h1 : k0 = k <;>
      simp_all [dict_set, dict_get?]

theorem dict_set_eq_of_get {κ β : Type} [DecidableEq κ] {k : κ} {v : β}
    {d : List (κ × β)} (h : dict_get? k d = some v) : dict_set k v d = d := by
  induction d with
  | nil => simp [dict_get?] at h
  | cons hd tl ih =>
    obtain ⟨k0, v0⟩ := hd
    by_cases h0 : k0 = k
    · subst h0
      simp [dict_get?] at h
      simp [dict_set, h]
    · simp [dict_get?, h0] at h
      simp [dict_set, h0, ih h]

theorem dict_get?_eq_none_iff {κ β : Type} [DecidableEq κ] (k : κ)
    (d : List (κ × β)) : dict_get? k d = none ↔ k ∉ d.map Prod.fst := by
  induction d with
  | nil => simp [dict_get?]
  | cons hd tl ih =>
    obtain ⟨k0, v0⟩ := hd
    by_cases h0 : k0 = k
    · subst h0
      simp [dict_get?]
    · simp only [dict_get?, if_neg h0, List.map_cons, List.mem_cons, ih]
      constructor
      · intro h hk
        rcases hk with hk | hk
        · exact h0 hk.symm
        · exact h hk
      · intro h hk
        exact h (Or.inr hk)

theorem keys_dict_set {κ β : Type} [DecidableEq κ] (k : κ) (v : β)
    (d : List (κ × β)) :
    (dict_set k v d).map Prod.fst =
      if k ∈ d.map Prod.fst then d.map Prod.fst
      else d.map Prod.fst ++ [k] := by
  induction d with
  | nil => simp [dict_set]
  | cons hd tl ih =>
    obtain ⟨k0, v0⟩ := hd
    by_cases h0 : k0 = k
    · subst h0; simp [dict_set]
    · by_cases hk : k ∈ tl.map Prod.fst <;>
        simp_all [dict_set, Ne.symm h0]

theorem cell_get?_set_self {β : Type} (s : Nat) (t : String) (v : β)
    (c : Cache β) : cell_get? s t (cell_set s t v c) = some v := by
  simp [cell_get?, cell_set, dict_get?_set_self]

theorem cell_get?_set_ne {β : Type} {s' s : Nat} {t' t : String}
    (h : (s', t') ≠ (s, t)) (v : β) (c : Cache β) :
    cell_get? s t (cell_set s' t' v c) = cell_get? s t c := by
  by_cases hs : s' = s
  · subst hs
    have ht : t' ≠ t := by
      intro he; exact h (by rw [he])
    unfold cell_get? cell_set
    rw [dict_get?_set_self]
    cases hc : dict_get? s' c with
    | none => simp [dict_get?_set_ne ht, dict_get?, dict_set, ht]
    | some inner => simp [dict_get?_set_ne ht]
  · unfold cell_get? cell_set
    rw [dict_get?_set_ne hs]

theorem cell_set_eq_of_get {β : Type} {s : Nat} {t : String} {v : β}
    {c : Cache β} (h : cell_get? s t c = some v) : cell_set s t v c = c := by
  unfold cell_get? at h
  cases hc : dict_get? s c with
  | none => rw [hc] at h; simp at h
  | some inner =>
    rw [hc] at h
    simp at h
    unfold cell_set
    rw [hc]
    simp [dict_set_eq_of_get h, dict_set_eq_of_get hc]

theorem mem_keys_cell_set {β : Type} (k s : Nat) (t : String) (v : β)
    (c : Cache β) :
    k ∈ cache_keys (cell_set s t v c) ↔ k ∈ cache_keys c ∨ k = s := by
  unfold cache_keys cell_set
  rw [keys_dict_set]
  by_cases hs : s ∈ c.map Prod.fst
  · rw [if_pos hs]
    constructor
    · exact Or.inl
    · rintro (h | h)
      · exact h
      · subst h; exact hs
  · rw [if_neg hs, List.mem_append, List.mem_singleton]

theorem cells_fold_nil {β : Type} (f : Nat → String → β) (c : Cache β) :
    cells_fold f [] c = c := rfl

theorem cells_fold_cons {β : Type} (f : Nat → String → β) (p : Nat × String)
    (l : List (Nat × String)) (c : Cache β) :
    cells_fold f (p :: l) c = cells_fold f l (cell_set p.1 p.2 (f p.1 p.2) c) :=
  rfl

theorem cell_get?_cells_fold_not_mem {β : Type} (f : Nat → String → β)
    {l : List (Nat × String)} {s : Nat} {t : String} (h : (s, t) ∉ l) :
    ∀ c : Cache β, cell_get? s t (cells_fold f l c) = cell_get? s t c := by
  induction l with
  | nil => intro c; rfl
  | cons p rest ih =>
    intro c
    have hp : p ≠ (s, t) := fun he => h (he ▸ List.mem_cons_self p rest)
    have hrest : (s, t) ∉ rest := fun hm => h (List.mem_cons_of_mem p hm)
    rw [cells_fold_cons, ih hrest]
    exact cell_get?_set_ne (by exact fun he => hp (by cases p; simpa using he)) _ _

theorem cell_get?_cells_fold_mem {β : Type} (f : Nat → String → β)
    {l : List (Nat × String)} (hl : l.Nodup) {s : Nat} {t : String}
    (h : (s, t) ∈ l) :
    ∀ c : Cache β, cell_get? s t (cells_fold f l c) = some (f s t) := by
  induction l with
  | nil => cases h
  | cons p rest ih =>
    intro c
    rcases List.mem_cons.mp h with hp | hrest
    · subst hp
      have hnot : (s, t) ∉ rest := (List.nodup_cons.mp hl).1
      rw [cells_fold_cons, cell_get?_cells_fold_not_mem f hnot,
        cell_get?_set_self]
    · exact ih (List.nodup_cons.mp hl).2 hrest _

theorem cells_fold_id {β : Type} (f : Nat → String → β)
    {l : List (Nat × String)} {c : Cache β}
    (h : ∀ p ∈ l, cell_set p.1 p.2 (f p.1 p.2) c = c) :
    cells_fold f l c = c := by
  induction l with
  | nil => rfl
  | cons p rest ih =>
    rw [cells_fold_cons, h p (List.mem_cons_self p rest)]
    exact ih (fun q hq => h q (List.mem_cons_of_mem p hq))

theorem mem_keys_cells_fold {β : Type} (f : Nat → String → β)
    (l : List (Nat × String)) (k : Nat) :
    ∀ c : Cache β, k ∈ cache_keys (cells_fold f l c) ↔
      k ∈ cache_keys c ∨ ∃ t, (k, t) ∈ l := by
  induction l with
  | nil => intro c; simp [cells_fold_nil]
  | cons p rest ih =>
    intro c
    rw [cells_fold_cons, ih, mem_keys_cell_set]
    constructor
    · rintro ((h | h) | ⟨t, ht⟩)
      · exact Or.inl h
      · exact Or.inr ⟨p.2, by simp [h]⟩
      · exact Or.inr ⟨t, List.mem_cons_of_mem p ht⟩
    · rintro (h | ⟨t, ht⟩)
      · exact Or.inl (Or.inl h)
      · rcases List.mem_cons.mp ht with hp | hrest
        · exact Or.inl (Or.inr (by rw [← hp]))
        · exact Or.inr ⟨t, hrest⟩

theorem foldl_max_eq_or_mem (l : List Nat) :
    ∀ a : Nat, l.foldl max a = a ∨ l.foldl max a ∈ l := by
  induction l with
  | nil => intro a; exact Or.inl rfl
  | cons b rest ih =>
    intro a
    rcases ih (max a b) with h | h
    · rw [List.foldl_cons, h]
      rcases max_choice a b with hm | hm
      · exact Or.inl hm
      · exact Or.inr (by rw [hm]; exact List.mem_cons_self b rest)
    · rw [List.foldl_cons]
      exact Or.inr (List.mem_cons_of_mem b h)

theorem le_foldl_max (l : List Nat) :
    ∀ a : Nat, a ≤ l.foldl max a ∧ ∀ k ∈ l, k ≤ l.foldl max a := by
  induction l with
  | nil => intro a; exact ⟨Nat.le_refl a, by simp⟩
  | cons b rest ih =>
    intro a
    obtain ⟨h1, h2⟩ := ih (max a b)
    rw [List.foldl_cons]
    refine ⟨Nat.le_trans (Nat.le_max_left a b) h1, ?_⟩
    intro k hk
    rcases List.mem_cons.mp hk with hb | hr
    · rw [hb]
      exact Nat.le_trans (Nat.le_max_right a b) h1
    · exact h2 k hr

theorem most_current_year_spec {β : Type} {c : Cache β} {m : Nat}
    (h : most_current_year c = some m) :
    m ∈ cache_keys c ∧ ∀ k ∈ cache_keys c, k ≤ m := by
  unfold most_current_year at h
  cases hc : cache_keys c with
  | nil => rw [hc] at h; cases h
  | cons k0 ks =>
    rw [hc] at h
    have hm : m = ks.foldl max k0 := by
      cases h; rfl
    subst hm
    constructor
    · rcases foldl_max_eq_or_mem ks k0 with he | he
      · rw [he]; exact List.mem_cons_self k0 ks
      · exact List.mem_cons_of_mem k0 he
    · intro k hk
      obtain ⟨h1, h2⟩ := le_foldl_max ks k0
      rcases List.mem_cons.mp hk with hb | hr
      · exact hb ▸ h1
      · exact h2 k hr

theorem most_current_year_of_ne_nil {β : Type} {c : Cache β} (h : c ≠ []) :
    ∃ m, most_current_year c = some m := by
  cases c with
  | nil => exact absurd rfl h
  | cons hd tl =>
    exact ⟨(tl.map Prod.fst).foldl max hd.1, rfl⟩

theorem most_current_year_eq_some {β : Type} {c : Cache β} {m : Nat}
    (hm : m ∈ cache_keys c) (hmax : ∀ k ∈ cache_keys c, k ≤ m) :
    most_current_year c = some m := by
  have hne : c ≠ [] := by
    intro he
    rw [he] at hm
    simp [cache_keys] at hm
  obtain ⟨m0, hm0⟩ := most_current_year_of_ne_nil hne
  obtain ⟨h1, h2⟩ := most_current_year_spec hm0
  have he : m0 = m := Nat.le_antisymm (hmax m0 h1) (h2 m hm)
  rw [hm0, he]

theorem mem_range_incl {a b k : Nat} : k ∈ range_incl a b ↔ a ≤ k ∧ k ≤ b := by
  unfold range_incl
  rw [List.mem_range']
  constructor
  · rintro ⟨i, hi, rfl⟩
    omega
  · rintro ⟨h1, h2⟩
    exact ⟨k - a, by omega, by omega⟩

theorem range_incl_self (a : Nat) : range_incl a a = [a] := by
  unfold range_incl
  have h : a + 1 - a = 1 := by omega
  rw [h]
  rfl

theorem nodup_range_incl (a b : Nat) : (range_incl a b).Nodup :=
  List.nodup_range' a (b + 1 - a)

theorem teams_nodup : teams.Nodup := by decide

theorem teams_ne_nil : "ATL" ∈ teams := by decide

theorem mem_season_cells {ss : List Nat} {s : Nat} {t : String} :
    (s, t) ∈ season_cells ss ↔ s ∈ ss ∧ t ∈ teams := by
  unfold season_cells
  rw [List.mem_flatMap]
  constructor
  · rintro ⟨s', hs', hm⟩
    rw [List.mem_map] at hm
    obtain ⟨t', ht', he⟩ := hm
    injection he with h1 h2
    subst h1
    subst h2
    exact ⟨hs', ht'⟩
  · rintro ⟨hs, ht⟩
    exact ⟨s, hs, List.mem_map.mpr ⟨t, ht, rfl⟩⟩

theorem nodup_season_cells {ss : List Nat} (h : ss.Nodup) :
    (season_cells ss).Nodup := by
  induction ss with
  | nil => simp [season_cells]
  | cons s rest ih =>
    rw [season_cells, List.flatMap_cons]
    refine List.Nodup.append ?_ (ih (List.nodup_cons.mp h).2) ?_
    · exact List.Nodup.map (fun a b he => by simpa using he) teams_nodup
    · intro p hp1 hp2
      rw [List.mem_map] at hp1
      obtain ⟨t, ht, rfl⟩ := hp1
      exact (List.nodup_cons.mp h).1 (mem_season_cells.mp hp2).1

theorem foldl_cell_step {β : Type} (f : Nat → String → β)
    (l : List (Nat × String)) :
    ∀ c : Cache β, l.foldl (cell_step f) ⟨c, c⟩
      = ⟨cells_fold f l c, cells_fold f l c⟩ := by
  induction l with
  | nil => intro c; rfl
  | cons p rest ih =>
    intro c
    rw [List.foldl_cons, cells_fold_cons]
    exact ih (cell_set p.1 p.2 (f p.1 p.2) c)

theorem current_season_ge {y m : Nat} : y ≤ current_season y m := by
  unfold current_season
  split <;> omega

theorem update_round_trip {β : Type} (f : Nat → String → β) (a cur : Nat)
    (c0 : Cache β) (ha : a ≤ cur) (hk : ∀ k ∈ cache_keys c0, k ≤ cur) :
    most_current_year (cells_fold f (season_cells (range_incl a cur)) c0)
      = some cur ∧
    cells_fold f (season_cells (range_incl cur cur))
        (cells_fold f (season_cells (range_incl a cur)) c0)
      = cells_fold f (season_cells (range_incl a cur)) c0 := by
  have hcur_mem : cur ∈ range_incl a cur := mem_range_incl.mpr ⟨ha, Nat.le_refl cur⟩
  have hcells_nodup : (season_cells (range_incl a cur)).Nodup :=
    nodup_season_cells (nodup_range_incl a cur)
  have hcell_val : ∀ t ∈ teams,
      cell_get? cur t (cells_fold f (season_cells (range_incl a cur)) c0)
        = some (f cur t) := by
    intro t ht
    exact cell_get?_cells_fold_mem f hcells_nodup
      (mem_season_cells.mpr ⟨hcur_mem, ht⟩) c0
  constructor
  · apply most_current_year_eq_some
    · rw [mem_keys_cells_fold]
      exact Or.inr ⟨"ATL", mem_season_cells.mpr ⟨hcur_mem, teams_ne_nil⟩⟩
    · intro k hkmem
      rw [mem_keys_cells_fold] at hkmem
      rcases hkmem with hmem | ⟨t, hmem⟩
      · exact hk k hmem
      · exact (mem_range_incl.mp (mem_season_cells.mp hmem).1).2
  · apply cells_fold_id
    intro p hp
    rw [range_incl_self] at hp
    obtain ⟨s, t⟩ := p
    obtain ⟨hs, ht⟩ := mem_season_cells.mp hp
    have hs' : s = cur := by simpa using hs
    subst hs'
    exact cell_set_eq_of_get (hcell_val t ht)

theorem date_le_trans (a b c : Date) (h1 : date_le a b = true)
    (h2 : date_le b c = true) : date_le a c = true := by
  simp only [date_le, decide_eq_true_eq] at h1 h2 ⊢
  omega

theorem date_le_total (a b : Date) : date_le a b = true ∨ date_le b a = true := by
  simp only [date_le, decide_eq_true_eq]
  omega

theorem mapM_option_eq_some_of_forall {α β : Type} (f : α → Option β)
    (l : List α) (h : ∀ a ∈ l, (f a).isSome = true) :
    ∃ l2, l.mapM f = some l2 := by
  induction l with
  | nil => exact ⟨[], rfl⟩
  | cons a rest ih =>
    obtain ⟨b, hb⟩ := Option.isSome_iff_exists.mp (h a (List.mem_cons_self a rest))
    obtain ⟨l2, hl2⟩ := ih (fun x hx => h x (List.mem_cons_of_mem a hx))
    refine ⟨b :: l2, ?_⟩
    rw [List.mapM_cons, hb, hl2]
    rfl

theorem mapM_option_mem {α β : Type} (f : α → Option β) :
    ∀ (l : List α) (l2 : List β), l.mapM f = some l2 →
      ∀ a ∈ l, ∃ b ∈ l2, f a = some b := by
  intro l
  induction l with
  | nil =>
    intro l2 h a ha
    cases ha
  | cons x rest ih =>
    intro l2 h a ha
    rw [List.mapM_cons] at h
    cases hx : f x with
    | none => rw [hx] at h; simp at h
    | some b =>
      rw [hx] at h
      cases hr : rest.mapM f with
      | none => rw [hr] at h; simp at h
      | some bs =>
        rw [hr] at h
        simp only [Option.bind_some, Option.pure_def, Option.bind_eq_bind,
          Option.some_bind, Option.some.injEq] at h
        rcases List.mem_cons.mp ha with hax | hmem
        · subst hax
          exact ⟨b, by rw [← h]; exact List.mem_cons_self b bs, hx⟩
        · obtain ⟨b2, hb2, hfb2⟩ := ih bs hr a hmem
          exact ⟨b2, by rw [← h]; exact List.mem_cons_of_mem b hb2, hfb2⟩

/-- C2: for every current date (year, month) and storage state, update's
season plan satisfies: the current season is year + 1 when month > 7 and
year otherwise; range_incl a b is exactly the seasons a through b inclusive;
a nonempty loaded cache has a maximum season key; when a cache file exists
and rebuild is false the scraped range runs from that maximum key through
the current season inclusive keeping the loaded cache; otherwise the range
runs from 2003 through the current season inclusive starting from an empty
cache. -/
theorem scrape_plan_spec {β : Type} (y m : Nat) (ce rb : Bool)
    (loaded : Cache β) :
    (7 < m → current_season y m = y + 1) ∧
    (m ≤ 7 → current_season y m = y) ∧
    (∀ a b k : Nat, k ∈ range_incl a b ↔ a ≤ k ∧ k ≤ b) ∧
    (loaded ≠ [] → ∃ m0, most_current_year loaded = some m0 ∧
      m0 ∈ cache_keys loaded ∧ ∀ k ∈ cache_keys loaded, k ≤ m0) ∧
    (ce = true → rb = false → ∀ m0, most_current_year loaded = some m0 →
      scrape_plan ce rb loaded y m
        = some (range_incl m0 (current_season y m), loaded)) ∧
    ((ce = false ∨ rb = true) → scrape_plan ce rb loaded y m
        = some (range_incl 2003 (current_season y m), [])) := by
  refine ⟨?_, ?_, ?_, ?_, ?_, ?_⟩
  · intro h
    unfold current_season
    rw [if_pos h]
  · intro h
    unfold current_season
    rw [if_neg (by omega)]
  · intro a b k
    exact mem_range_incl
  · intro h
    obtain ⟨m0, hm0⟩ := most_current_year_of_ne_nil h
    obtain ⟨h1, h2⟩ := most_current_year_spec hm0
    exact ⟨m0, hm0, h1, h2⟩
  · rintro rfl rfl m0 hm0
    unfold scrape_plan
    rw [hm0]
    rfl
  · rintro (rfl | rfl)
    · rfl
    · cases ce <;> rfl

/-- Witness for C2 at a concrete date and cache. -/
theorem scrape_plan_spec_witness :
    current_season 2025 10 = 2026 ∧
    scrape_plan true false [((2019 : Nat), ([] : List (String × Nat)))]
        2025 10
      = some (range_incl 2019 2026, [(2019, [])]) ∧
    scrape_plan false false [((2019 : Nat), ([] : List (String × Nat)))]
        2025 10
      = some (range_incl 2003 2026, []) := by
  have h := scrape_plan_spec (β := Nat) 2025 10 true false [(2019, [])]
  have h2 := scrape_plan_spec (β := Nat) 2025 10 false false [(2019, [])]
  refine ⟨h.1 (by decide), ?_, ?_⟩
  · have hc : current_season 2025 10 = 2026 := h.1 (by decide)
    have := h.2.2.2.2.1 rfl rfl 2019 rfl
    rwa [hc] at this
  · have hc : current_season 2025 10 = 2026 := h.1 (by decide)
    have := h2.2.2.2.2.2 (Or.inl rfl)
    rwa [hc] at this

/-- C3: if the updater's loop over the (season, team) cells is interrupted
after completing n of them, the cache persisted by the per-cell dill.dump
equals the initial cache overwritten with exactly the first n cells' fetched
data: cells outside the completed prefix still hold their prior (loaded)
contents, and every completed cell holds exactly its fetched games, with no
data from unfinished cells. -/
theorem checkpoint_durability {β : Type} (f : Nat → String → β)
    (cells : List (Nat × String)) (init : Cache β) (n : Nat) :
    (interrupted_run f cells n ⟨init, init⟩).disk
        = cells_fold f (cells.take n) init ∧
    (∀ s t, (s, t) ∉ cells.take n →
      cell_get? s t (interrupted_run f cells n ⟨init, init⟩).disk
        = cell_get? s t init) ∧
    (cells.Nodup → ∀ s t, (s, t) ∈ cells.take n →
      cell_get? s t (interrupted_run f cells n ⟨init, init⟩).disk
        = some (f s t)) := by
  have hdisk : (interrupted_run f cells n ⟨init, init⟩).disk
      = cells_fold f (cells.take n) init := by
    unfold interrupted_run
    rw [foldl_cell_step]
  refine ⟨hdisk, ?_, ?_⟩
  · intro s t h
    rw [hdisk]
    exact cell_get?_cells_fold_not_mem f h init
  · intro hnd s t h
    rw [hdisk]
    exact cell_get?_cells_fold_mem f (hnd.sublist (List.take_sublist n cells))
      h init

/-- Witness for C3 on a concrete two-cell run interrupted after one cell. -/
theorem checkpoint_durability_witness :
    cell_get? 2019 "BOS"
        (interrupted_run (fun _ _ => (7 : Nat)) [(2019, "BOS"), (2019, "ATL")] 1
          ⟨[], []⟩).disk = some 7 ∧
    cell_get? 2019 "ATL"
        (interrupted_run (fun _ _ => (7 : Nat)) [(2019, "BOS"), (2019, "ATL")] 1
          ⟨[], []⟩).disk = cell_get? 2019 "ATL" ([] : Cache Nat) := by
  have h := checkpoint_durability (fun _ _ => (7 : Nat))
    [(2019, "BOS"), (2019, "ATL")] [] 1
  exact ⟨h.2.2 (by decide) 2019 "BOS" (by decide),
    h.2.1 2019 "ATL" (by decide)⟩

/-- C9: with a fixed remote data source, running update twice in succession
with rebuild false produces the same persisted cache as running it once: the
second run re-scrapes only the current season, whose cells already hold
exactly the data the fixed source provides. Stated for any start state whose
loaded cache (when one exists) is nonempty with all season keys at most the
current season, which holds for every cache this program writes. -/
theorem update_idempotent {β : Type} (f : Nat → String → β) (y m : Nat)
    (cacheExists : Bool) (loaded : Cache β) (hy : 2003 ≤ y)
    (hloaded : cacheExists = true → loaded ≠ [] ∧
      ∀ k ∈ cache_keys loaded, k ≤ current_season y m) :
    ∃ c1, update_run f cacheExists false loaded y m = some c1 ∧
      update_run f true false c1 y m = some c1 := by
  have hcur : 2003 ≤ current_season y m := Nat.le_trans hy current_season_ge
  cases cacheExists with
  | false =>
    obtain ⟨hmax, hid⟩ := update_round_trip f 2003 (current_season y m) []
      hcur (by simp [cache_keys])
    refine ⟨cells_fold f (season_cells (range_incl 2003 (current_season y m)))
      [], ?_, ?_⟩
    · unfold update_run scrape_plan
      simp only [Bool.false_and, Bool.false_eq_true, if_false,
        Option.map_some']
    · unfold update_run scrape_plan
      rw [hmax]
      simp only [Bool.and_self, Bool.not_false, Bool.and_true, if_true,
        Option.map_some']
      exact congrArg some hid
  | true =>
    obtain ⟨hne, hkb⟩ := hloaded rfl
    obtain ⟨m0, hm0⟩ := most_current_year_of_ne_nil hne
    have hm0le : m0 ≤ current_season y m :=
      hkb m0 (most_current_year_spec hm0).1
    obtain ⟨hmax, hid⟩ := update_round_trip f m0 (current_season y m) loaded
      hm0le hkb
    refine ⟨cells_fold f (season_cells (range_incl m0 (current_season y m)))
      loaded, ?_, ?_⟩
    · unfold update_run scrape_plan
      rw [hm0]
      simp only [Bool.not_false, Bool.and_true, if_true, Option.map_some']
    · unfold update_run scrape_plan
      rw [hmax]
      simp only [Bool.not_false, Bool.and_true, if_true, Option.map_some']
      exact congrArg some hid

/-- Witness for C9 on a concrete fresh run. -/
theorem update_idempotent_witness :
    ∃ c1, update_run (fun _ _ => (0 : Nat)) false false [] 2003 1 = some c1 ∧
      update_run (fun _ _ => (0 : Nat)) true false c1 2003 1 = some c1 :=
  update_idempotent (fun _ _ => (0 : Nat)) 2003 1 false []
    (by decide) (fun h => by cases h)

/-- C4 counterexample: the matched string ZZZ is contained in no alias row,
and the resolver lookup returns none (Python's implicit None fall-through) in
both modes instead of raising an unresolvable-team-name error. -/
theorem abbr_miss_counterexample :
    (∀ row ∈ team_aliases, row.contains "ZZZ" = false) ∧
    abbr_of_match "ZZZ" false = none ∧
    abbr_of_match "ZZZ" true = none := ⟨by decide, rfl, rfl⟩

/-- C4 (amended): whenever the fuzzy-match step produces a matched string
contained in no row of the alias table, the resolver silently returns
nothing (Python's implicit None), not an explicit unresolvable-team-name
error. -/
theorem abbr_of_match_miss (name : String) (espn : Bool)
    (h : ∀ row ∈ team_aliases, row.contains name = false) :
    abbr_of_match name espn = none := by
  unfold abbr_of_match
  rw [List.find?_eq_none.mpr]
  · rfl
  · intro row hrow
    rw [h row hrow]
    exact Bool.false_ne_true

/-- Witness for C4 at a concrete unmatched string. -/
theorem abbr_of_match_miss_witness : abbr_of_match "QQQ" false = none :=
  abbr_of_match_miss "QQQ" false (by decide)

/-- C5 counterexample: the row text Tue, Nov 10 parsed with season 2021 has
month 11 ≥ 7 but is assigned calendar year 2020, not the year 2021 the claim
states for months at or after July. -/
theorem fetch_year_counterexample :
    parse_date_text 2021 ("Tue, Nov 10".toList) = Except.ok ⟨2020, 11, 10⟩ ∧
    7 ≤ 11 ∧ (2020 : Nat) ≠ 2021 := ⟨rfl, by decide, by decide⟩

/-- C5 (amended): for every schedule row date accepted by the Fetcher with
input season s, the assigned calendar year equals s when the month is before
July (month < 7) and s - 1 when the month is July or later (month ≥ 7) —
the opposite orientation of the claim. -/
theorem fetch_year_spec (s : Nat) (text : List Char) (d : Date)
    (h : parse_date_text s text = Except.ok d) :
    (d.month < 7 → d.year = s) ∧ (7 ≤ d.month → d.year = s - 1) := by
  unfold parse_date_text at h
  split at h
  · split at h
    · cases h
    · split at h
      · cases h
      · split at h
        · injection h with h2
          subst h2
          simp only
          unfold infer_year
          constructor
          · intro hlt
            rw [if_pos hlt]
          · intro hge
            rw [if_neg (by omega)]
        · cases h
  · cases h

/-- Witness for C5 at two concrete accepted dates. -/
theorem fetch_year_spec_witness :
    (Date.mk 2021 1 15).year = 2021 ∧ (Date.mk 2020 11 10).year = 2021 - 1 :=
  ⟨(fetch_year_spec 2021 ("Fri, Jan 15".toList) ⟨2021, 1, 15⟩ rfl).1
      (by decide),
    (fetch_year_spec 2021 ("Tue, Nov 10".toList) ⟨2020, 11, 10⟩ rfl).2
      (by decide)⟩

/-- C6: a schedule row dated January 15 fetched with season 2021 is assigned
calendar year 2021, and a row dated November 10 with season 2021 is assigned
calendar year 2020. -/
theorem fetch_year_examples :
    parse_date_text 2021 ("Fri, Jan 15".toList) = Except.ok ⟨2021, 1, 15⟩ ∧
    parse_date_text 2021 ("Tue, Nov 10".toList) = Except.ok ⟨2020, 11, 10⟩ :=
  ⟨rfl, rfl⟩

/-- C7 counterexample: a page of two well-formed rows and one malformed row
whose opponent cell lacks its second anchor; the malformed row raises
IndexError, which the except clause does not catch, so the fetch aborts
instead of skipping the row and yielding the two good records. -/
theorem fetch_rows_counterexample :
    fetch_rows "BOS" 2020 [sample_row1, sample_row_badlink, sample_row2]
      = Except.error PyErr.indexError ∧
    parse_row "BOS" 2020 sample_row_badlink
      = Except.error PyErr.indexError ∧
    caught PyErr.indexError = false := ⟨rfl, rfl, rfl⟩

/-- C7 (amended): a row that fails to parse with one of the caught exception
classes (ValueError or AttributeError: wrong cell count, malformed date,
missing home/result markers, malformed score) is silently skipped while
later rows are still processed; on a page of two well-formed rows and one
row malformed in a caught way, fetch yields exactly the two game records in
row order. A row failing with an uncaught exception (IndexError from a
missing second opponent anchor) instead aborts the fetch. -/
theorem fetch_rows_skip_spec :
    (∀ (team : String) (season : Nat) (rows1 : List Row) (r : Row)
      (rows2 : List Row) (e : PyErr),
      parse_row team season r = Except.error e → caught e = true →
      fetch_rows team season (rows1 ++ r :: rows2)
        = fetch_rows team season (rows1 ++ rows2)) ∧
    fetch_rows "BOS" 2020 [sample_row1, sample_row_bad, sample_row2]
      = Except.ok [sample_game1, sample_game2] := by
  constructor
  · intro team season rows1 r rows2 e he hc
    induction rows1 with
    | nil =>
      simp only [List.nil_append]
      rw [fetch_rows, he]
      simp [hc]
    | cons r1 rest ih =>
      simp only [List.cons_append]
      rw [fetch_rows]
      conv_rhs => rw [fetch_rows]
      simp only [ih]
  · rfl

/-- Witness for C7's skip property at a concrete caught-error row. -/
theorem fetch_rows_skip_spec_witness :
    fetch_rows "BOS" 2020 [sample_row_bad, sample_row1]
      = fetch_rows "BOS" 2020 [sample_row1] :=
  fetch_rows_skip_spec.1 "BOS" 2020 [] sample_row_bad [sample_row1]
    PyErr.valueError rfl rfl

/-- C8 counterexample: on the spec's example cache, which has cells only for
BOS, the library read-back raises KeyError (modelled as none) while looking
up the other teams, instead of yielding the flattened date-sorted games. -/
theorem load_games_counterexample :
    load_games sample_cache_bos_only = none ∧
    sample_cache_bos_only ≠ [] := ⟨rfl, by simp [sample_cache_bos_only]⟩

/-- C8 (amended): for every persisted cache in which each cached season has
a cell for every one of the 30 known teams, the library read-back yields a
sequence that is sorted by date ascending and contains every game of every
(season, team) cell; a cache missing a team's cell instead fails with a
KeyError. On a full cache whose BOS cells hold cg1, cg2 (season 2019) and
cg3 (season 2020), the result is exactly that triple in date order,
independently of the season-key iteration order. -/
theorem load_games_spec :
    (∀ c : Cache (List (Game (Option String))),
      (∀ y ∈ cache_keys c, ∀ t ∈ teams, (cell_get? y t c).isSome = true) →
      ∃ l, load_games c = some l ∧
        l.Pairwise (fun g1 g2 => date_le g1.date g2.date = true) ∧
        (∀ y ∈ cache_keys c, ∀ t ∈ teams,
          ∀ g ∈ (cell_get? y t c).getD [], g ∈ l)) ∧
    load_games sample_cache_full = some [cg1, cg2, cg3] ∧
    load_games sample_cache_rev = some [cg1, cg2, cg3] := by
  refine ⟨?_, rfl, rfl⟩
  intro c hc
  have hall : ∀ p ∈ teams.flatMap
      (fun t => (cache_keys c).map (fun y => (t, y))),
      ((dict_get? p.2 c).bind (fun inner => dict_get? p.1 inner)).isSome
        = true := by
    intro p hp
    rw [List.mem_flatMap] at hp
    obtain ⟨t, ht, hmem⟩ := hp
    rw [List.mem_map] at hmem
    obtain ⟨y, hy, rfl⟩ := hmem
    exact hc y hy t ht
  obtain ⟨cells, hcells⟩ := mapM_option_eq_some_of_forall _ _ hall
  refine ⟨List.insertionSort (fun g1 g2 => date_le g1.date g2.date = true)
    cells.flatten, ?_, ?_, ?_⟩
  · unfold load_games
    rw [hcells]
    rfl
  · haveI : IsTotal (Game (Option String))
        (fun g1 g2 => date_le g1.date g2.date = true) :=
      ⟨fun a b => date_le_total a.date b.date⟩
    haveI : IsTrans (Game (Option String))
        (fun g1 g2 => date_le g1.date g2.date = true) :=
      ⟨fun a b c => date_le_trans a.date b.date c.date⟩
    exact List.sorted_insertionSort _ _
  · intro y hy t ht g hg
    have hpmem : (t, y) ∈ teams.flatMap
        (fun t => (cache_keys c).map (fun y => (t, y))) := by
      rw [List.mem_flatMap]
      exact ⟨t, ht, List.mem_map.mpr ⟨y, hy, rfl⟩⟩
    obtain ⟨gs, hgs, hfgs⟩ := mapM_option_mem _ _ cells hcells (t, y) hpmem
    have hcell : cell_get? y t c = some gs := hfgs
    rw [hcell] at hg
    have hg2 : g ∈ gs := by simpa using hg
    have hflat : g ∈ cells.flatten := List.mem_flatten.mpr ⟨gs, hgs, hg2⟩
    exact ((List.perm_insertionSort _ _).mem_iff).mpr hflat

/-- Witness for C8's general part on the full sample cache. -/
theorem load_games_spec_witness :
    ∃ l, load_games sample_cache_full = some l ∧
      l.Pairwise (fun g1 g2 => date_le g1.date g2.date = true) ∧
      (∀ y ∈ cache_keys sample_cache_full, ∀ t ∈ teams,
        ∀ g ∈ (cell_get? y t sample_cache_full).getD [], g ∈ l) :=
  load_games_spec.1 sample_cache_full (by decide)

/-- C10: the resolver is idempotent on canonical input — for each of the 30
standard abbreviations in the first column of the alias table, abbr returns
the abbreviation itself when espn is false. -/
theorem abbr_idempotent : ∀ s ∈ teams, abbr s false = some s := by decide

/-- Witness for C10 at a concrete standard abbreviation. -/
theorem abbr_idempotent_witness : abbr "BOS" false = some "BOS" :=
  abbr_idempotent "BOS" (by decide)
